import Mathlib

/-!
Verification development for the `ettore` RISC-V-like simulator.

The definitions below are a shallow embedding of the Rust sources:
`src/bit.rs`, `src/opcodes.rs`, `src/mvm1.rs`, `src/mvm2.rs`, `src/mvm3.rs`.

Machine integers are embedded as `Int` carrying the signed value:
an `i32` is an integer in `[-2^31, 2^31)`, an `i8` an integer in
`[-128, 128)`.  Two's-complement bit patterns are recovered with
`toU8` / `toU32`, and re-signed with `ofU8` / `ofU32`.  Arithmetic
that the source performs on `i32` wraps through `wrap32`.
-/

namespace Ettore

/-- Unsigned 8-bit pattern of an `i8` value (two's complement). -/
def toU8 (n : Int) : Nat := (n % 256).toNat

/-- Signed value of an 8-bit pattern. -/
def ofU8 (p : Nat) : Int := if p < 128 then (p : Int) else (p : Int) - 256

/-- Unsigned 32-bit pattern of an `i32` value (two's complement). -/
def toU32 (n : Int) : Nat := (n % 4294967296).toNat

/-- Signed value of a 32-bit pattern. -/
def ofU32 (p : Nat) : Int := if p < 2147483648 then (p : Int) else (p : Int) - 4294967296

/-- Wrapping `i32` arithmetic: reduce an integer to the representative in
`[-2^31, 2^31)` congruent mod `2^32`. -/
def wrap32 (n : Int) : Int := ofU32 (toU32 n)

/-! ## src/bit.rs -/

/-- `get_i8_bit(input, n)`: `input & (1 << n) != 0`, i.e. bit `n` of the
two's-complement pattern of the `i8`. -/
def get_i8_bit (input : Int) (n : Nat) : Bool := (toU8 input).testBit n

/-- `get_i32_bit(input, n)`: `input & (1 << n) != 0` on `i32`. -/
def get_i32_bit (input : Int) (n : Nat) : Bool := (toU32 input).testBit n

/-- `set_i8_bit(n, i)`: `n | (1 << i)` on `i8`. -/
def set_i8_bit (n : Int) (i : Nat) : Int := ofU8 (toU8 n ||| (1 <<< i))

/-- `set_i32_bit(n, i)`: `n | (1 << i)` on `i32`. -/
def set_i32_bit (n : Int) (i : Nat) : Int := ofU32 (toU32 n ||| (1 <<< i))

/-- One of the four loops of `bytes_from_low_bits`: build an `i8` from bits
`lo, lo+1, …, lo+7` of `n`, local index running `0..8`. -/
def byteFromBits (n : Int) (lo : Nat) : Int :=
  (List.range 8).foldl (fun acc i => if get_i32_bit n (lo + i) then set_i8_bit acc i else acc) 0

/-- `bytes_from_low_bits(n)`: split an `i32` into four sign-extended 8-bit
lanes, little-endian. -/
def bytes_from_low_bits (n : Int) : Int × Int × Int × Int :=
  (byteFromBits n 0, byteFromBits n 8, byteFromBits n 16, byteFromBits n 24)

/-- One of the four loops of `i32_from_bytes`: fold the 8 bits of the byte
`b` into the accumulator at positions `lo, …, lo+7`. -/
def wordFromByte (b : Int) (lo : Nat) (acc : Int) : Int :=
  (List.range 8).foldl (fun acc i => if get_i8_bit b i then set_i32_bit acc (lo + i) else acc) acc

/-- `i32_from_bytes(i1, i2, i3, i4)`: reassemble an `i32` from four 8-bit
lanes in little-endian order. -/
def i32_from_bytes (i1 i2 i3 i4 : Int) : Int :=
  wordFromByte i4 24 (wordFromByte i3 16 (wordFromByte i2 8 (wordFromByte i1 0 0)))

/-! ## src/opcodes.rs: data model -/

/-- The 32 architectural registers, in source declaration order. -/
inductive RegisterType
  | ZERO | RA | SP | GP | TP
  | T0 | T1 | T2
  | S0 | S1
  | A0 | A1 | A2 | A3 | A4 | A5 | A6 | A7
  | S2 | S3 | S4 | S5 | S6 | S7 | S8 | S9 | S10 | S11
  | T3 | T4 | T5 | T6
  deriving DecidableEq, Repr

/-- The opcode tags, in source declaration order. -/
inductive InstructionType
  | ADD | ADDI | AND | ANDI | AUIPC
  | BEQ | BGE | BGEU | BLT | BLTU | BNE
  | DIV | JAL | JALR | LUI
  | LB | LH | LW
  | NOP | MUL | OR | ORI | REM
  | SB | SH
  | SLL | SLLI | SLT | SLTU | SLTI
  | SRA | SRAI | SRL | SRLI
  | SUB | SW | XOR | XORI
  deriving DecidableEq, Repr

/-- The machine state `Context`: register file, byte-addressable memory of
signed 8-bit cells, program counter.  Registers hold signed 32-bit values. -/
structure Context where
  registers : RegisterType → Int
  memory : List Int
  pc : Int

/-- `Context::new(memory_bytes)`. -/
def Context.new (memory_bytes : Nat) : Context :=
  { registers := fun _ => 0, memory := List.replicate memory_bytes 0, pc := 0 }

/-- `set_register`: writes to `ZERO` are silently discarded. -/
def set_register (ctx : Context) (register : RegisterType) (value : Int) : Context :=
  if register = RegisterType.ZERO then ctx
  else { ctx with registers := fun r => if r = register then value else ctx.registers r }

/-- The closed instruction set: one constructor per `InstructionRunner`
struct of `opcodes.rs`, fields in source order. -/
inductive Instr
  | add (rd rs1 rs2 : RegisterType)
  | addi (imm : Int) (rd rs : RegisterType)
  | and (rd rs1 rs2 : RegisterType)
  | andi (imm : Int) (rd rs : RegisterType)
  | auipc (rd : RegisterType) (imm : Int)
  | beq (rs1 rs2 : RegisterType) (label : String)
  | bge (rs1 rs2 : RegisterType) (label : String)
  | bgeu (rs1 rs2 : RegisterType) (label : String)
  | blt (rs1 rs2 : RegisterType) (label : String)
  | bltu (rs1 rs2 : RegisterType) (label : String)
  | bne (rs1 rs2 : RegisterType) (label : String)
  | div (rd rs1 rs2 : RegisterType)
  | jal (label : String) (rd : RegisterType)
  | jalr (rd rs : RegisterType) (imm : Int)
  | lui (rd : RegisterType) (imm : Int)
  | lb (rs2 : RegisterType) (offset : Int) (rs1 : RegisterType)
  | lh (rs2 : RegisterType) (offset : Int) (rs1 : RegisterType)
  | lw (rs2 : RegisterType) (offset : Int) (rs1 : RegisterType)
  | nop
  | mul (rd rs1 rs2 : RegisterType)
  | or (rd rs1 rs2 : RegisterType)
  | ori (imm : Int) (rd rs : RegisterType)
  | rem (rd rs1 rs2 : RegisterType)
  | sb (rs2 : RegisterType) (offset : Int) (rs1 : RegisterType)
  | sh (rs2 : RegisterType) (offset : Int) (rs1 : RegisterType)
  | sll (rd rs1 rs2 : RegisterType)
  | slli (rd rs : RegisterType) (imm : Int)
  | slt (rd rs1 rs2 : RegisterType)
  | sltu (rd rs1 rs2 : RegisterType)
  | slti (rd rs : RegisterType) (imm : Int)
  | sra (rd rs1 rs2 : RegisterType)
  | srai (rd rs : RegisterType) (imm : Int)
  | srl (rd rs1 rs2 : RegisterType)
  | srli (rd rs : RegisterType) (imm : Int)
  | sub (rd rs1 rs2 : RegisterType)
  | sw (rs2 : RegisterType) (offset : Int) (rs1 : RegisterType)
  | xor (rd rs1 rs2 : RegisterType)
  | xori (imm : Int) (rd rs : RegisterType)
  deriving DecidableEq, Repr

/-- `instruction_type` of each runner. -/
def instruction_type : Instr → InstructionType
  | .add _ _ _ => .ADD
  | .addi _ _ _ => .ADDI
  | .and _ _ _ => .AND
  | .andi _ _ _ => .ANDI
  | .auipc _ _ => .AUIPC
  | .beq _ _ _ => .BEQ
  | .bge _ _ _ => .BGE
  | .bgeu _ _ _ => .BGEU
  | .blt _ _ _ => .BLT
  | .bltu _ _ _ => .BLTU
  | .bne _ _ _ => .BNE
  | .div _ _ _ => .DIV
  | .jal _ _ => .JAL
  | .jalr _ _ _ => .JALR
  | .lui _ _ => .LUI
  | .lb _ _ _ => .LB
  | .lh _ _ _ => .LH
  | .lw _ _ _ => .LW
  | .nop => .NOP
  | .mul _ _ _ => .MUL
  | .or _ _ _ => .OR
  | .ori _ _ _ => .ORI
  | .rem _ _ _ => .REM
  | .sb _ _ _ => .SB
  | .sh _ _ _ => .SH
  | .sll _ _ _ => .SLL
  | .slli _ _ _ => .SLLI
  | .slt _ _ _ => .SLT
  | .sltu _ _ _ => .SLTU
  | .slti _ _ _ => .SLTI
  | .sra _ _ _ => .SRA
  | .srai _ _ _ => .SRAI
  | .srl _ _ _ => .SRL
  | .srli _ _ _ => .SRLI
  | .sub _ _ _ => .SUB
  | .sw _ _ _ => .SW
  | .xor _ _ _ => .XOR
  | .xori _ _ _ => .XORI

/-- A compiled program: ordered instructions plus the label→address map. -/
structure Application where
  instructions : List Instr
  labels : List (String × Int)

/-! ## src/opcodes.rs: instruction semantics

Helpers for the `i32` operators appearing in the source.  Bitwise
operators act on the two's-complement pattern; `>>` on `i32` in Rust is
the arithmetic right shift, i.e. floor division by a power of two. -/

/-- `a & b` on `i32`. -/
def i32And (a b : Int) : Int := ofU32 (toU32 a &&& toU32 b)

/-- `a | b` on `i32`. -/
def i32Or (a b : Int) : Int := ofU32 (toU32 a ||| toU32 b)

/-- `a ^ b` on `i32`. -/
def i32Xor (a b : Int) : Int := ofU32 (toU32 a ^^^ toU32 b)

/-- `a << b` on `i32` (wrapping; the source never shifts by ≥ 32). -/
def i32Shl (a b : Int) : Int := wrap32 (a * 2 ^ b.toNat)

/-- `a >> b` on `i32`: arithmetic right shift, which propagates the sign
bit; on signed values this is floor division by `2 ^ b`. -/
def i32Shr (a b : Int) : Int := Int.fdiv a (2 ^ b.toNat)

/-- `InstructionRunner::run` for every opcode, as one closed match. The
source mutates `ctx` and returns the next pc or an error string; here the
updated context is returned alongside the next pc.  The caller stores the
returned pc into `ctx.pc`.  Memory indexing models the in-bounds behavior
of `Vec` (the tests never go out of bounds). -/
def run (i : Instr) (ctx : Context) (labels : List (String × Int)) :
    Except String (Context × Int) :=
  match i with
  | .add rd rs1 rs2 =>
      .ok (set_register ctx rd (wrap32 (ctx.registers rs1 + ctx.registers rs2)), ctx.pc + 4)
  | .addi imm rd rs =>
      .ok (set_register ctx rd (wrap32 (ctx.registers rs + imm)), ctx.pc + 4)
  | .and rd rs1 rs2 =>
      .ok (set_register ctx rd (i32And (ctx.registers rs1) (ctx.registers rs2)), ctx.pc + 4)
  | .andi imm rd rs =>
      .ok (set_register ctx rd (i32And (ctx.registers rs) imm), ctx.pc + 4)
  | .auipc rd imm =>
      .ok (set_register ctx rd (wrap32 (ctx.pc + i32Shl imm 12)), ctx.pc + 4)
  | .beq rs1 rs2 label =>
      if ctx.registers rs1 = ctx.registers rs2 then
        match labels.lookup label with
        | some v => .ok (ctx, v)
        | none => .error ("label " ++ label ++ " does not exist")
      else .ok (ctx, ctx.pc + 4)
  | .bge rs1 rs2 label =>
      if ctx.registers rs1 ≥ ctx.registers rs2 then
        match labels.lookup label with
        | some v => .ok (ctx, v)
        | none => .error ("label " ++ label ++ " does not exist")
      else .ok (ctx, ctx.pc + 4)
  | .bgeu rs1 rs2 label =>
      if ctx.registers rs1 ≥ ctx.registers rs2 then
        match labels.lookup label with
        | some v => .ok (ctx, v)
        | none => .error ("label " ++ label ++ " does not exist")
      else .ok (ctx, ctx.pc + 4)
  | .blt rs1 rs2 label =>
      if ctx.registers rs1 < ctx.registers rs2 then
        match labels.lookup label with
        | some v => .ok (ctx, v)
        | none => .error ("label " ++ label ++ " does not exist")
      else .ok (ctx, ctx.pc + 4)
  | .bltu rs1 rs2 label =>
      if ctx.registers rs1 < ctx.registers rs2 then
        match labels.lookup label with
        | some v => .ok (ctx, v)
        | none => .error ("label " ++ label ++ " does not exist")
      else .ok (ctx, ctx.pc + 4)
  | .bne rs1 rs2 label =>
      if ctx.registers rs1 ≠ ctx.registers rs2 then
        match labels.lookup label with
        | some v => .ok (ctx, v)
        | none => .error ("label " ++ label ++ " does not exist")
      else .ok (ctx, ctx.pc + 4)
  | .div rd rs1 rs2 =>
      .ok (set_register ctx rd (Int.tdiv (ctx.registers rs1) (ctx.registers rs2)), ctx.pc + 4)
  | .jal label rd =>
      match labels.lookup label with
      | some addr => .ok (set_register ctx rd (ctx.pc + 4), addr)
      | none => .error ("label " ++ label ++ " does not exist")
  | .jalr rd rs imm =>
      .ok (set_register ctx rd (ctx.pc + 4), wrap32 (ctx.registers rs + imm))
  | .lui rd imm =>
      .ok (set_register ctx rd (i32Shl imm 12), ctx.pc + 4)
  | .lb rs2 offset rs1 =>
      let idx := ctx.registers rs1 + offset
      let n := ctx.memory.getD idx.toNat 0
      .ok (set_register ctx rs2 n, ctx.pc + 4)
  | .lh rs2 offset rs1 =>
      let idx := ctx.registers rs1 + offset
      let i1 := ctx.memory.getD idx.toNat 0
      let i2 := ctx.memory.getD (idx + 1).toNat 0
      .ok (set_register ctx rs2 (i32_from_bytes i1 i2 0 0), ctx.pc + 4)
  | .lw rs2 offset rs1 =>
      let idx := ctx.registers rs1 + offset
      let i1 := ctx.memory.getD idx.toNat 0
      let i2 := ctx.memory.getD (idx + 1).toNat 0
      let i3 := ctx.memory.getD (idx + 2).toNat 0
      let i4 := ctx.memory.getD (idx + 3).toNat 0
      .ok (set_register ctx rs2 (i32_from_bytes i1 i2 i3 i4), ctx.pc + 4)
  | .nop => .ok (ctx, ctx.pc + 4)
  | .mul rd rs1 rs2 =>
      .ok (set_register ctx rd (wrap32 (ctx.registers rs1 * ctx.registers rs2)), ctx.pc + 4)
  | .or rd rs1 rs2 =>
      .ok (set_register ctx rd (i32Or (ctx.registers rs1) (ctx.registers rs2)), ctx.pc + 4)
  | .ori imm rd rs =>
      .ok (set_register ctx rd (i32Or (ctx.registers rs) imm), ctx.pc + 4)
  | .rem rd rs1 rs2 =>
      .ok (set_register ctx rd (Int.tmod (ctx.registers rs1) (ctx.registers rs2)), ctx.pc + 4)
  | .sb rs2 offset rs1 =>
      let idx := ctx.registers rs1 + offset
      let n := ctx.registers rs2
      .ok ({ ctx with memory := ctx.memory.set idx.toNat (ofU8 (toU8 n)) }, ctx.pc + 4)
  | .sh rs2 offset rs1 =>
      let idx := ctx.registers rs1 + offset
      let bytes := bytes_from_low_bits (ctx.registers rs2)
      .ok ({ ctx with memory :=
              (ctx.memory.set idx.toNat bytes.1).set (idx + 1).toNat bytes.2.1 }, ctx.pc + 4)
  | .sll rd rs1 rs2 =>
      .ok (set_register ctx rd (i32Shl (ctx.registers rs1) (ctx.registers rs2)), ctx.pc + 4)
  | .slli rd rs imm =>
      .ok (set_register ctx rd (i32Shl (ctx.registers rs) imm), ctx.pc + 4)
  | .slt rd rs1 rs2 =>
      .ok ((if ctx.registers rs1 < ctx.registers rs2 then set_register ctx rd 1
            else set_register ctx rd 0), ctx.pc + 4)
  | .sltu rd rs1 rs2 =>
      .ok ((if ctx.registers rs1 < ctx.registers rs2 then set_register ctx rd 1
            else set_register ctx rd 0), ctx.pc + 4)
  | .slti rd rs imm =>
      .ok ((if ctx.registers rs < imm then set_register ctx rd 1
            else set_register ctx rd 0), ctx.pc + 4)
  | .sra rd rs1 rs2 =>
      .ok (set_register ctx rd (i32Shr (ctx.registers rs1) (ctx.registers rs2)), ctx.pc + 4)
  | .srai rd rs imm =>
      .ok (set_register ctx rd (i32Shr (ctx.registers rs) imm), ctx.pc + 4)
  | .srl rd rs1 rs2 =>
      .ok (set_register ctx rd (i32Shr (ctx.registers rs1) (ctx.registers rs2)), ctx.pc + 4)
  | .srli rd rs imm =>
      .ok (set_register ctx rd (i32Shr (ctx.registers rs) imm), ctx.pc + 4)
  | .sub rd rs1 rs2 =>
      .ok (set_register ctx rd (wrap32 (ctx.registers rs1 - ctx.registers rs2)), ctx.pc + 4)
  | .sw rs2 offset rs1 =>
      let idx := ctx.registers rs1 + offset
      let bytes := bytes_from_low_bits (ctx.registers rs2)
      .ok ({ ctx with memory :=
              ((((ctx.memory.set idx.toNat bytes.1).set
                  (idx + 1).toNat bytes.2.1).set
                  (idx + 2).toNat bytes.2.2.1).set
                  (idx + 3).toNat bytes.2.2.2) }, ctx.pc + 4)
  | .xor rd rs1 rs2 =>
      .ok (set_register ctx rd (i32Xor (ctx.registers rs1) (ctx.registers rs2)), ctx.pc + 4)
  | .xori imm rd rs =>
      .ok (set_register ctx rd (i32Xor (ctx.registers rs) imm), ctx.pc + 4)

/-- `cycles_per_instruction`: execute-stage latency (`f32` in the source,
whole-valued, embedded as `Int`). -/
def cycles_per_instruction : InstructionType → Int
  | .ADD => 1 | .ADDI => 1 | .AND => 1 | .ANDI => 1 | .AUIPC => 1
  | .BEQ => 1 | .BGE => 1 | .BGEU => 1 | .BLT => 1 | .BLTU => 1 | .BNE => 1
  | .DIV => 1 | .JAL => 1 | .JALR => 1 | .LUI => 1
  | .LB => 50 | .LH => 50 | .LW => 50
  | .NOP => 1 | .MUL => 1 | .OR => 1 | .ORI => 1 | .REM => 1
  | .SB => 50 | .SH => 50
  | .SLL => 1 | .SLLI => 1 | .SLT => 1 | .SLTU => 1 | .SLTI => 1
  | .SRA => 1 | .SRAI => 1 | .SRL => 1 | .SRLI => 1
  | .SUB => 1 | .SW => 50 | .XOR => 1 | .XORI => 1

/-- `write_back`: true unless the instruction is a store. -/
def write_back : InstructionType → Bool
  | .SB | .SW | .SH => false
  | _ => true

/-- `jump`: JAL and JALR. -/
def jump : InstructionType → Bool
  | .JAL | .JALR => true
  | _ => false

/-- `conditional_branching` as written in the source: note that `BLTU` is
absent from the match. -/
def conditional_branching : InstructionType → Bool
  | .BEQ | .BNE | .BLT | .BGE | .BGEU => true
  | _ => false

/-! ## src/mvm1.rs: M1 reference interpreter -/

/-- `Runner::fetch_instruction` (M1): instruction at `pc/4`, 50 cycles.
The loop guard guarantees the index is in bounds; `.nop` is an arbitrary
default that the guard makes unreachable. -/
def mvm1_fetch_instruction (ctx : Context) (app : Application) : Instr × Int :=
  (app.instructions.getD (Int.tdiv ctx.pc 4).toNat .nop, 50)

/-- `Runner::decode` (M1): 1 cycle. -/
def mvm1_decode (runner : Instr) : InstructionType × Int :=
  (instruction_type runner, 1)

/-- The combined execute + write-back cycle table of `Runner::execute_write`
(M1), one arm per opcode as in the source. -/
def mvm1_execute_write_cycles : InstructionType → Int
  | .ADD => 2 | .ADDI => 2 | .AND => 2 | .ANDI => 2 | .AUIPC => 2
  | .BEQ => 2 | .BGE => 2 | .BGEU => 2 | .BLT => 2 | .BLTU => 2 | .BNE => 2
  | .DIV => 2 | .JAL => 2 | .JALR => 2 | .LUI => 2
  | .LB => 51 | .LH => 51 | .LW => 51
  | .NOP => 2 | .MUL => 2 | .OR => 2 | .ORI => 2 | .REM => 2
  | .SB => 50 | .SH => 50
  | .SLL => 2 | .SLLI => 2 | .SLT => 2 | .SLTU => 2 | .SLTI => 2
  | .SRA => 2 | .SRAI => 2 | .SRL => 2 | .SRLI => 2
  | .SUB => 2 | .SW => 50 | .XOR => 2 | .XORI => 2

/-- `Runner::execute_write` (M1): run the instruction (storing the returned
pc in the context, as the loop's `execute_write` does through
`runner.run`), then report the combined execute + write-back cycles. -/
def mvm1_execute_write (ctx : Context) (labels : List (String × Int)) (runner : Instr) :
    Except String (Context × Int) :=
  match run runner ctx labels with
  | .error e => .error e
  | .ok (ctx1, pc) => .ok ({ ctx1 with pc := pc }, mvm1_execute_write_cycles (instruction_type runner))

/-- One iteration of the M1 `run` loop (the guard `pc/4 < N` holds):
fetch, decode, execute/write-back; returns the new context and the cycles
this iteration added. -/
def mvm1_step (app : Application) (ctx : Context) : Except String (Context × Int) :=
  let fetch := mvm1_fetch_instruction ctx app
  let decode := mvm1_decode fetch.1
  match mvm1_execute_write ctx app.labels fetch.1 with
  | .error e => .error e
  | .ok (ctx1, ew) => .ok (ctx1, fetch.2 + decode.2 + ew)

/-- `Runner::run` (M1), with fuel standing in for the unbounded `while`
loop: `none` when the fuel runs out, otherwise the loop's result together
with the final context and accumulated cycle count. -/
def mvm1_run (app : Application) : Nat → Context → Int → Option (Except String (Context × Int))
  | 0, _, _ => none
  | fuel + 1, ctx, cycles =>
      if Int.tdiv ctx.pc 4 < (app.instructions.length : Int) then
        match mvm1_step app ctx with
        | .error e => some (.error e)
        | .ok (ctx1, c) => mvm1_run app fuel ctx1 (cycles + c)
      else
        some (.ok (ctx, cycles))

/-! ## src/mvm2.rs: M2 single-line I-cache interpreter -/

/-- The M2 machine: context plus the single instruction-cache line
`[l1_min, l1_max]`, initialized to `[-1, -1]`. -/
structure Mvm2 where
  ctx : Context
  l1_min : Int
  l1_max : Int

/-- `Mvm2::new`. -/
def Mvm2.new (memory_bytes : Nat) : Mvm2 :=
  { ctx := Context.new memory_bytes, l1_min := -1, l1_max := -1 }

/-- `Mvm2::fetch_instruction`: on a hit (`l1_min ≤ pc ≤ l1_max`) charge 1
cycle; on a miss refill the line to `[pc, pc + 64]` and charge 50 cycles. -/
def Mvm2.fetch_instruction (m : Mvm2) : (Nat × Int) × Mvm2 :=
  if m.ctx.pc ≥ m.l1_min ∧ m.ctx.pc ≤ m.l1_max then
    (((Int.tdiv m.ctx.pc 4).toNat, 1), m)
  else
    (((Int.tdiv m.ctx.pc 4).toNat, 50), { m with l1_min := m.ctx.pc, l1_max := m.ctx.pc + 64 })

/-- One iteration of the M2 `run` loop (same structure as M1 but with the
cached fetch; `Mvm2::execute_write` is identical to M1's). -/
def mvm2_step (app : Application) (m : Mvm2) : Except String (Mvm2 × Int) :=
  let fetch := m.fetch_instruction
  let m1 := fetch.2
  let runner := app.instructions.getD fetch.1.1 .nop
  let decode := mvm1_decode runner
  match mvm1_execute_write m1.ctx app.labels runner with
  | .error e => .error e
  | .ok (ctx1, ew) => .ok ({ m1 with ctx := ctx1 }, fetch.1.2 + decode.2 + ew)

/-- `Mvm2::run` with fuel for the `while` loop. -/
def mvm2_run (app : Application) : Nat → Mvm2 → Int → Option (Except String (Mvm2 × Int))
  | 0, _, _ => none
  | fuel + 1, m, cycles =>
      if Int.tdiv m.ctx.pc 4 < (app.instructions.length : Int) then
        match mvm2_step app m with
        | .error e => some (.error e)
        | .ok (m1, c) => mvm2_run app fuel m1 (cycles + c)
      else
        some (.ok (m, cycles))

/-! ## src/mvm3.rs: M3 four-stage pipeline

`mvm3.rs` is compiled against a revision of `opcodes.rs` that is not part
of `src/`: in that revision `InstructionRunner::run` returns an
`Execution` record (target register, value, next pc) instead of writing
the register file directly, instructions expose their read/write register
sets, and `Context` carries the scoreboard.  Those missing pieces are
modelled from the spec below and marked as such; everything else follows
`mvm3.rs` directly. -/

/-- Observation helper: the destination register of the one `set_register`
call an instruction performs, if any (loads write their `rs2` field;
branches, stores and NOP write no register). -/
def instrDest : Instr → Option RegisterType
  | .add rd _ _ => some rd
  | .addi _ rd _ => some rd
  | .and rd _ _ => some rd
  | .andi _ rd _ => some rd
  | .auipc rd _ => some rd
  | .beq _ _ _ => none
  | .bge _ _ _ => none
  | .bgeu _ _ _ => none
  | .blt _ _ _ => none
  | .bltu _ _ _ => none
  | .bne _ _ _ => none
  | .div rd _ _ => some rd
  | .jal _ rd => some rd
  | .jalr rd _ _ => some rd
  | .lui rd _ => some rd
  | .lb rs2 _ _ => some rs2
  | .lh rs2 _ _ => some rs2
  | .lw rs2 _ _ => some rs2
  | .nop => none
  | .mul rd _ _ => some rd
  | .or rd _ _ => some rd
  | .ori _ rd _ => some rd
  | .rem rd _ _ => some rd
  | .sb _ _ _ => none
  | .sh _ _ _ => none
  | .sll rd _ _ => some rd
  | .slli rd _ _ => some rd
  | .slt rd _ _ => some rd
  | .sltu rd _ _ => some rd
  | .slti rd _ _ => some rd
  | .sra rd _ _ => some rd
  | .srai rd _ _ => some rd
  | .srl rd _ _ => some rd
  | .srli rd _ _ => some rd
  | .sub rd _ _ => some rd
  | .sw _ _ _ => none
  | .xor rd _ _ => some rd
  | .xori _ rd _ => some rd

/-- Modelled from the spec: the write-register set each instruction exposes
to the M3 hazard machinery ("the set … it writes"); the registers the
instruction commits at write-back.  Stores and branches write none. -/
def write_registers (i : Instr) : List RegisterType :=
  match instrDest i with
  | some r => [r]
  | none => []

/-- Modelled from the spec: the read-register set each instruction exposes
to the M3 hazard machinery ("the set of registers it reads"). -/
def read_registers : Instr → List RegisterType
  | .add _ rs1 rs2 => [rs1, rs2]
  | .addi _ _ rs => [rs]
  | .and _ rs1 rs2 => [rs1, rs2]
  | .andi _ _ rs => [rs]
  | .auipc _ _ => []
  | .beq rs1 rs2 _ => [rs1, rs2]
  | .bge rs1 rs2 _ => [rs1, rs2]
  | .bgeu rs1 rs2 _ => [rs1, rs2]
  | .blt rs1 rs2 _ => [rs1, rs2]
  | .bltu rs1 rs2 _ => [rs1, rs2]
  | .bne rs1 rs2 _ => [rs1, rs2]
  | .div _ rs1 rs2 => [rs1, rs2]
  | .jal _ _ => []
  | .jalr _ rs _ => [rs]
  | .lui _ _ => []
  | .lb _ _ rs1 => [rs1]
  | .lh _ _ rs1 => [rs1]
  | .lw _ _ rs1 => [rs1]
  | .nop => []
  | .mul _ rs1 rs2 => [rs1, rs2]
  | .or _ rs1 rs2 => [rs1, rs2]
  | .ori _ _ rs => [rs]
  | .rem _ rs1 rs2 => [rs1, rs2]
  | .sb rs2 _ rs1 => [rs2, rs1]
  | .sh rs2 _ rs1 => [rs2, rs1]
  | .sll _ rs1 rs2 => [rs1, rs2]
  | .slli _ rs _ => [rs]
  | .slt _ rs1 rs2 => [rs1, rs2]
  | .sltu _ rs1 rs2 => [rs1, rs2]
  | .slti _ rs _ => [rs]
  | .sra _ rs1 rs2 => [rs1, rs2]
  | .srai _ rs _ => [rs]
  | .srl _ rs1 rs2 => [rs1, rs2]
  | .srli _ rs _ => [rs]
  | .sub _ rs1 rs2 => [rs1, rs2]
  | .sw rs2 _ rs1 => [rs2, rs1]
  | .xor _ rs1 rs2 => [rs1, rs2]
  | .xori _ _ rs => [rs]

/-- Modelled from the spec: the `Execution` record the M3-era
`InstructionRunner::run` returns — "(new register write, new pc)": target
register, value to commit, and the next pc. -/
structure Execution where
  register : RegisterType
  value : Int
  pc : Int
  deriving DecidableEq, Repr

/-- Modelled from the spec: the M3-era `InstructionRunner::run` (missing
from `src/`).  Same per-opcode semantics as `run`, but the register write
is returned in an `Execution` record instead of being applied (register
writes become visible at write-back); stores still write memory at
execute.  Instructions that write no register carry `ZERO` (whose commit
the write unit discards). -/
def runM3 (i : Instr) (ctx : Context) (labels : List (String × Int)) :
    Except String (Execution × List Int) :=
  match run i ctx labels with
  | .error e => .error e
  | .ok (ctx1, pc) =>
      let rd := (instrDest i).getD RegisterType.ZERO
      .ok ({ register := rd, value := ctx1.registers rd, pc := pc }, ctx1.memory)

/-- The record carried on the execute→write bus. -/
structure ExecutionContext where
  execution : Execution
  instruction_type : InstructionType
  write_registers : List RegisterType
  deriving DecidableEq, Repr

/-- Modelled from the spec: `Context::contain_written_registers` — does the
scoreboard hold any of the given (read) registers? -/
def contain_written_registers (scoreboard registers : List RegisterType) : Bool :=
  registers.any (fun r => scoreboard.contains r)

/-- Modelled from the spec: `Context::add_write_registers` — enter the
write-register set into the scoreboard (a multiset). -/
def add_write_registers (scoreboard ws : List RegisterType) : List RegisterType :=
  scoreboard ++ ws

/-- Modelled from the spec: `Context::delete_write_registers` — remove one
occurrence of each given register from the scoreboard. -/
def delete_write_registers (scoreboard ws : List RegisterType) : List RegisterType :=
  ws.foldl (fun s r => s.erase r) scoreboard

/-- Modelled from the spec: `Context::write` — commit an `Execution` to the
register file, respecting the ZERO-write rule. -/
def Context.write (ctx : Context) (e : Execution) : Context :=
  set_register ctx e.register e.value

/-- A pipeline bus: bounded queue with the two-phase visibility protocol
(`entry` → `buffer` → `queue`, promoted by `connect`). -/
structure Bus (α : Type) where
  entry : List (List α)
  buffer : List (List α)
  queue : List α
  max : Nat
  deriving Repr

/-- `Bus::new(max)`. -/
def Bus.new (α : Type) (max : Nat) : Bus α :=
  { entry := [], buffer := [], queue := [], max := max }

/-- `Bus::flush`. -/
def Bus.flush {α : Type} (b : Bus α) : Bus α :=
  { b with entry := [], buffer := [], queue := [] }

/-- `Bus::add`. -/
def Bus.add {α : Type} (b : Bus α) (t : List α) : Bus α :=
  { b with entry := b.entry ++ [t] }

/-- `Bus::is_full`. -/
def Bus.is_full {α : Type} (b : Bus α) : Bool :=
  b.queue.length == b.max || b.entry.length == b.max

/-- `Bus::is_empty`. -/
def Bus.is_empty {α : Type} (b : Bus α) : Bool :=
  b.queue.length == 0 && b.buffer.length == 0 && b.entry.length == 0

/-- `Bus::contains_element_in_buffer`. -/
def Bus.contains_element_in_buffer {α : Type} (b : Bus α) : Bool :=
  b.buffer.length != 0

/-- `Bus::contains_element_in_queue`. -/
def Bus.contains_element_in_queue {α : Type} (b : Bus α) : Bool :=
  b.queue.length != 0

/-- `Bus::contains_element_in_entry`. -/
def Bus.contains_element_in_entry {α : Type} (b : Bus α) : Bool :=
  b.entry.length != 0

/-- `Bus::connect`: promote `buffer → queue` and `entry → buffer`; a no-op
when the visible queue is already at capacity. -/
def Bus.connect {α : Type} (b : Bus α) : Bus α :=
  if b.queue.length = b.max then b
  else { b with queue := b.queue ++ b.buffer.flatten, buffer := b.entry, entry := [] }

/-- The single instruction-cache line of M3 (`L1I`): inclusive boundary,
`L1I_CACHE_LINE = 64 * 8 = 512` bytes. -/
def L1I.present (boundary : Int × Int) (pc : Int) : Bool :=
  pc ≥ boundary.1 && pc ≤ boundary.2

/-- `L1I::fetch`: refill the line to `[pc, pc + 512]`. -/
def L1I.fetch (pc : Int) : Int × Int := (pc, pc + 512)

/-- `FetchUnit` state. -/
structure FetchUnit where
  pc : Int
  l1i : Int × Int
  remaining_cycles : Int
  complete : Bool
  processing : Bool
  deriving DecidableEq, Repr

/-- `FetchUnit::new`. -/
def FetchUnit.new : FetchUnit :=
  { pc := 0, l1i := (-1, -1), remaining_cycles := 0, complete := false, processing := false }

/-- `FetchUnit::cycle`: `CYCLES_L1_ACCESS = 1` on a cache hit,
`CYCLES_MEMORY_ACCESS = 51` on a miss (refilling the line); when the
countdown reaches zero, push `pc/4` onto the outgoing bus unless it is
full, advance pc, and complete when `pc/4 ≥ N`. -/
def FetchUnit.cycle (fu : FetchUnit) (app : Application) (out_bus : Bus Nat) :
    FetchUnit × Bus Nat :=
  if fu.complete then (fu, out_bus)
  else
    let fu :=
      if !fu.processing then
        if L1I.present fu.l1i fu.pc then
          { fu with processing := true, remaining_cycles := 1 }
        else
          { fu with processing := true, remaining_cycles := 51, l1i := L1I.fetch fu.pc }
      else fu
    let fu := { fu with remaining_cycles := fu.remaining_cycles - 1 }
    if fu.remaining_cycles = 0 then
      if out_bus.is_full then ({ fu with remaining_cycles := 1 }, out_bus)
      else
        let current_pc := fu.pc
        let fu := { fu with processing := false, pc := fu.pc + 4 }
        let fu :=
          if Int.tdiv fu.pc 4 ≥ (app.instructions.length : Int) then
            { fu with complete := true }
          else fu
        (fu, out_bus.add [(Int.tdiv current_pc 4).toNat])
    else (fu, out_bus)

/-- `FetchUnit::flush`. -/
def FetchUnit.flush (fu : FetchUnit) (pc : Int) : FetchUnit :=
  { fu with processing := false, complete := false, pc := pc }

/-- `DecodeUnit::cycle` (the decode unit itself is stateless): move the
visible head of the fetch→decode bus, resolved to its instruction, onto
the decode→execute bus. -/
def decode_unit_cycle (app : Application) (in_bus : Bus Nat) (out_bus : Bus Instr) :
    Bus Nat × Bus Instr :=
  if !in_bus.contains_element_in_queue || out_bus.is_full then (in_bus, out_bus)
  else
    match in_bus.queue with
    | [] => (in_bus, out_bus)
    | idx :: rest =>
        ({ in_bus with queue := rest }, out_bus.add [app.instructions.getD idx .nop])

/-- `ExecuteUnit` state. -/
structure ExecuteUnit where
  processing : Bool
  remaining_cycles : Int
  runner : Option Instr
  deriving DecidableEq, Repr

/-- `ExecuteUnit::new`. -/
def ExecuteUnit.new : ExecuteUnit :=
  { processing := false, remaining_cycles := 0, runner := none }

/-- `ExecuteUnit::cycle`: pop a visible instruction when idle and start its
execute latency; when the countdown reaches zero, stall if the outgoing
bus is full or if a read register is still on the scoreboard; otherwise
run the instruction, store the returned pc, push the `ExecutionContext`
onto the execute→write bus and enter the write registers into the
scoreboard. -/
def ExecuteUnit.cycle (eu : ExecuteUnit) (ctx : Context) (scoreboard : List RegisterType)
    (app : Application) (in_bus : Bus Instr) (out_bus : Bus ExecutionContext) :
    Except String (ExecuteUnit × Context × List RegisterType × Bus Instr × Bus ExecutionContext) :=
  let popped : Option (ExecuteUnit × Bus Instr) :=
    if !eu.processing then
      match in_bus.queue with
      | [] => none
      | r :: rest =>
          some ({ eu with runner := some r,
                          remaining_cycles := cycles_per_instruction (instruction_type r),
                          processing := true },
                { in_bus with queue := rest })
    else some (eu, in_bus)
  match popped with
  | none => .ok (eu, ctx, scoreboard, in_bus, out_bus)
  | some (eu, in_bus) =>
      let eu := { eu with remaining_cycles := eu.remaining_cycles - 1 }
      if eu.remaining_cycles = 0 then
        if out_bus.is_full then
          .ok ({ eu with remaining_cycles := 1 }, ctx, scoreboard, in_bus, out_bus)
        else
          match eu.runner with
          | none => .ok (eu, ctx, scoreboard, in_bus, out_bus)
          | some runner =>
              if contain_written_registers scoreboard (read_registers runner) then
                .ok ({ eu with remaining_cycles := 1 }, ctx, scoreboard, in_bus, out_bus)
              else
                match runM3 runner ctx app.labels with
                | .error e => .error e
                | .ok (execution, mem) =>
                    .ok ({ eu with runner := none, processing := false },
                         { ctx with memory := mem, pc := execution.pc },
                         add_write_registers scoreboard (write_registers runner),
                         in_bus,
                         out_bus.add [{ execution := execution,
                                        instruction_type := instruction_type runner,
                                        write_registers := write_registers runner }])
      else .ok (eu, ctx, scoreboard, in_bus, out_bus)

/-- `ExecuteUnit::is_empty`. -/
def ExecuteUnit.is_empty (eu : ExecuteUnit) : Bool := !eu.processing

/-- `WriteUnit::cycle` (the write unit is stateless): retire the visible
head of the execute→write bus — commit the register write and clear the
scoreboard entries unless the opcode is a store. -/
def write_unit_cycle (ctx : Context) (scoreboard : List RegisterType)
    (write_bus : Bus ExecutionContext) :
    Context × List RegisterType × Bus ExecutionContext :=
  match write_bus.queue with
  | [] => (ctx, scoreboard, write_bus)
  | e :: rest =>
      if write_back e.instruction_type then
        (ctx.write e.execution, delete_write_registers scoreboard e.write_registers,
         { write_bus with queue := rest })
      else
        (ctx, scoreboard, { write_bus with queue := rest })

/-- `BranchUnit` state. -/
structure BranchUnit where
  condition_branching_expected : Option Int
  jump : Bool
  deriving DecidableEq, Repr

/-- `BranchUnit::new`. -/
def BranchUnit.new : BranchUnit :=
  { condition_branching_expected := none, jump := false }

/-- `BranchUnit::assert`: peek the visible head of the decode→execute bus;
for a jump record `jump = true`, for a conditional branch (per
`conditional_branching`) record the speculative next-sequential pc. -/
def BranchUnit.assert (bu : BranchUnit) (ctx : Context) (execute_bus : Bus Instr) : BranchUnit :=
  match execute_bus.queue with
  | [] => bu
  | r :: _ =>
      let ity := instruction_type r
      if Ettore.jump ity then { bu with jump := true }
      else if conditional_branching ity then
        { bu with condition_branching_expected := some (ctx.pc + 4) }
      else bu

/-- `BranchUnit::pipeline_to_be_flushed`: only evaluated when execute just
wrote to the execute→write bus; flush when a jump fired or a recorded
expected pc differs from the actual pc, clearing both fields. -/
def BranchUnit.pipeline_to_be_flushed (bu : BranchUnit) (ctx : Context)
    (write_bus : Bus ExecutionContext) : Bool × BranchUnit :=
  if !write_bus.contains_element_in_entry then (false, bu)
  else
    let cond :=
      match bu.condition_branching_expected with
      | some v => v != ctx.pc
      | none => false
    (cond || bu.jump, { condition_branching_expected := none, jump := false })

/-- The M3 machine state.  The scoreboard is modelled from the spec (in
the missing source revision it lives inside `Context`). -/
structure Mvm3 where
  ctx : Context
  scoreboard : List RegisterType
  fetch_unit : FetchUnit
  decode_bus : Bus Nat
  execute_bus : Bus Instr
  execute_unit : ExecuteUnit
  write_bus : Bus ExecutionContext
  branch_unit : BranchUnit

/-- `Mvm3::new`. -/
def Mvm3.new (memory_bytes : Nat) : Mvm3 :=
  { ctx := Context.new memory_bytes
    scoreboard := []
    fetch_unit := FetchUnit.new
    decode_bus := Bus.new Nat 1
    execute_bus := Bus.new Instr 1
    execute_unit := ExecuteUnit.new
    write_bus := Bus.new ExecutionContext 1
    branch_unit := BranchUnit.new }

/-- `Mvm3::flush(pc)`: reset fetch to the corrected pc and clear every
bus.  (The scoreboard is not touched.) -/
def Mvm3.flush (m : Mvm3) (pc : Int) : Mvm3 :=
  { m with fetch_unit := m.fetch_unit.flush pc
           decode_bus := m.decode_bus.flush
           execute_bus := m.execute_bus.flush
           write_bus := m.write_bus.flush }

/-- `Mvm3::is_complete`: every stage and every bus is empty (decode and
write units are always empty; the fetch unit is empty iff complete). -/
def Mvm3.is_complete (m : Mvm3) : Bool :=
  m.fetch_unit.complete && m.execute_unit.is_empty
    && m.decode_bus.is_empty && m.execute_bus.is_empty && m.write_bus.is_empty

/-- One iteration of the `Mvm3::run` loop: fetch, promote, decode,
promote, branch-unit assert, execute, flush check, promote, write-back,
then the flush (with the one-cycle drain of a pending write-bus buffer
element when needed).  Returns the new state and the extra cycles beyond
the 1 the loop itself charges. -/
def mvm3_tick (app : Application) (m : Mvm3) : Except String (Mvm3 × Int) :=
  let fd := m.fetch_unit.cycle app m.decode_bus
  let db := fd.2.connect
  let de := decode_unit_cycle app db m.execute_bus
  let eb := de.2.connect
  let bu := m.branch_unit.assert m.ctx eb
  match m.execute_unit.cycle m.ctx m.scoreboard app eb m.write_bus with
  | .error e => .error e
  | .ok (eu, ctx, sb, eb2, wb) =>
      let fl := bu.pipeline_to_be_flushed ctx wb
      let wb := wb.connect
      let wres := write_unit_cycle ctx sb wb
      let m1 : Mvm3 :=
        { ctx := wres.1, scoreboard := wres.2.1, fetch_unit := fd.1, decode_bus := de.1,
          execute_bus := eb2, execute_unit := eu, write_bus := wres.2.2, branch_unit := fl.2 }
      if fl.1 then
        if m1.write_bus.contains_element_in_buffer then
          let wb2 := m1.write_bus.connect
          let wres2 := write_unit_cycle m1.ctx m1.scoreboard wb2
          let m2 : Mvm3 :=
            { m1 with ctx := wres2.1, scoreboard := wres2.2.1, write_bus := wres2.2.2 }
          .ok (m2.flush m2.ctx.pc, 1)
        else
          .ok (m1.flush m1.ctx.pc, 0)
      else
        .ok (m1, 0)

/-- `Mvm3::run` with fuel for the unbounded loop: each iteration charges
one cycle plus the tick's extra drain cycle, ending when the pipeline is
completely empty. -/
def mvm3_run (app : Application) : Nat → Mvm3 → Int → Option (Except String (Mvm3 × Int))
  | 0, _, _ => none
  | fuel + 1, m, cycles =>
      match mvm3_tick app m with
      | .error e => some (.error e)
      | .ok (m1, extra) =>
          let cycles := cycles + 1 + extra
          if m1.is_complete then some (.ok (m1, cycles))
          else mvm3_run app fuel m1 cycles

/-! ## Observation helpers and concrete inputs used in the theorems -/

/-- The M3 state reached after `k` pipeline ticks (cycle boundaries);
`none` if a tick fails. -/
def mvm3_ticks (app : Application) : Nat → Mvm3 → Option Mvm3
  | 0, m => some m
  | k + 1, m =>
      match mvm3_tick app m with
      | .ok (m1, _) => mvm3_ticks app k m1
      | .error _ => none

/-- All write-register sets carried on an execute→write bus, in retirement
order (visible queue first, then buffer, then entry). -/
def busWrites (b : Bus ExecutionContext) : List RegisterType :=
  ((b.queue ++ b.buffer.flatten ++ b.entry.flatten).map ExecutionContext.write_registers).flatten

/-- The write-register set of the instruction currently held inside the
execute stage, if any. -/
def execute_held_writes (eu : ExecuteUnit) : List RegisterType :=
  match eu.runner with
  | some r => write_registers r
  | none => []

/-- A context whose registers are all 0 except `T1 = 1`, with empty memory. -/
def ctxT1 : Context :=
  { registers := fun r => if r = RegisterType.T1 then 1 else 0, memory := [], pc := 0 }

/-- A context with `T1 = -8` and `T2 = 1` (for the right-shift theorems). -/
def ctxShift : Context :=
  { registers := fun r =>
      if r = RegisterType.T1 then -8 else if r = RegisterType.T2 then 1 else 0,
    memory := [], pc := 0 }

/-- A context holding `T0 = 258` over four bytes of zeroed memory. -/
def ctxStore : Context :=
  { registers := fun r => if r = RegisterType.T0 then 258 else 0,
    memory := [0, 0, 0, 0], pc := 0 }

/-- `bltu t0, t1, foo ; addi t2, zero, 5 ; foo: addi t3, zero, 7`. -/
def appBltu : Application :=
  { instructions := [.bltu .T0 .T1 "foo", .addi 5 .T2 .ZERO, .addi 7 .T3 .ZERO],
    labels := [("foo", 8)] }

/-- The single-instruction program `lw t0, 0, zero`. -/
def appLw : Application :=
  { instructions := [.lw .T0 0 .ZERO], labels := [] }

/-- M3 started on four bytes of zeroed memory. -/
def mvm3LwStart : Mvm3 :=
  { Mvm3.new 0 with ctx := { Context.new 0 with memory := [0, 0, 0, 0] } }

/-- A decode→execute bus whose visible queue holds exactly one
instruction (the two-phase protocol has already promoted it). -/
def busWithHead (i : Instr) : Bus Instr :=
  { entry := [], buffer := [], queue := [i], max := 1 }

/-- The invariant tying the scoreboard to the execute→write bus at cycle
boundaries: the bus entry and visible queue have been drained, at most
one result sits in the buffer, the scoreboard lists exactly the write
registers of the results still on the bus, results whose opcode has no
register write-back carry an empty write set, and the bus capacity is 1. -/
def wbInv (m : Mvm3) : Prop :=
  m.write_bus.entry = [] ∧ m.write_bus.queue = []
    ∧ m.write_bus.buffer.flatten.length ≤ 1
    ∧ m.scoreboard = busWrites m.write_bus
    ∧ (∀ e ∈ m.write_bus.buffer.flatten,
        write_back e.instruction_type = false → e.write_registers = [])
    ∧ m.write_bus.max = 1

/-! ## Theorems -/

/-- C4: for every machine state, SLTU computes exactly the same result as
SLT with the same operands — the signed comparison `rs1 < rs2`, writing 1
or 0 to `rd` — and BLTU and BGEU decide taken/not-taken with the signed
predicates `rs1 < rs2` and `rs1 ≥ rs2`, identically to BLT and BGE. -/
theorem sltu_bltu_bgeu_use_signed_compare (ctx : Context) (labels : List (String × Int))
    (rd rs1 rs2 : RegisterType) (label : String) :
    run (.sltu rd rs1 rs2) ctx labels = run (.slt rd rs1 rs2) ctx labels
    ∧ run (.sltu rd rs1 rs2) ctx labels =
        .ok ((if ctx.registers rs1 < ctx.registers rs2 then set_register ctx rd 1
              else set_register ctx rd 0), ctx.pc + 4)
    ∧ run (.bltu rs1 rs2 label) ctx labels = run (.blt rs1 rs2 label) ctx labels
    ∧ run (.bgeu rs1 rs2 label) ctx labels = run (.bge rs1 rs2 label) ctx labels :=
  ⟨rfl, rfl, rfl, rfl⟩

/-- C10: for every starting state, SRL produces exactly the same result as
SRA with identical operands, and SRLI the same as SRAI; the implemented
right shift is the arithmetic one, so "logically" shifting the negative
value -8 right by 1 yields the negative value -4, not a zero-filled one. -/
theorem srl_is_arithmetic_shift (ctx : Context) (labels : List (String × Int))
    (rd rs1 rs2 rs : RegisterType) (imm : Int) :
    run (.srl rd rs1 rs2) ctx labels = run (.sra rd rs1 rs2) ctx labels
    ∧ run (.srli rd rs imm) ctx labels = run (.srai rd rs imm) ctx labels
    ∧ (run (.srl .T0 .T1 .T2) ctxShift []).map (fun p => p.1.registers .T0) = .ok (-4)
    ∧ i32Shr (-8) 1 = -4 ∧ i32Shr (-8) 1 < 0 :=
  ⟨rfl, rfl, rfl, by decide, by decide⟩

/-- C8: the branch unit records the speculative next-sequential pc for a
conditional-branch head and `jump = true` for a jump head — but the
source's `conditional_branching` omits BLTU, so a BLTU at the head of the
decode→execute queue records nothing (and a taken BLTU can never trigger
a flush), while BEQ, BNE, BLT, BGE, BGEU and the jumps behave as claimed.
Evaluated at pc = 0, so the recorded speculative pc is `0 + 4 = 4`. -/
theorem branch_unit_assert_misses_bltu :
    conditional_branching (instruction_type (.bltu .T0 .T1 "foo")) = false
    ∧ BranchUnit.new.assert (Context.new 0) (busWithHead (.bltu .T0 .T1 "foo"))
        = BranchUnit.new
    ∧ (BranchUnit.new.assert (Context.new 0) (busWithHead (.beq .T0 .T1 "foo"))).condition_branching_expected = some 4
    ∧ (BranchUnit.new.assert (Context.new 0) (busWithHead (.bne .T0 .T1 "foo"))).condition_branching_expected = some 4
    ∧ (BranchUnit.new.assert (Context.new 0) (busWithHead (.blt .T0 .T1 "foo"))).condition_branching_expected = some 4
    ∧ (BranchUnit.new.assert (Context.new 0) (busWithHead (.bge .T0 .T1 "foo"))).condition_branching_expected = some 4
    ∧ (BranchUnit.new.assert (Context.new 0) (busWithHead (.bgeu .T0 .T1 "foo"))).condition_branching_expected = some 4
    ∧ (BranchUnit.new.assert (Context.new 0) (busWithHead (.jal "foo" .T2))).jump = true
    ∧ (BranchUnit.new.assert (Context.new 0) (busWithHead (.jalr .T0 .T1 0))).jump = true :=
  ⟨rfl, rfl, rfl, rfl, rfl, rfl, rfl, rfl, rfl⟩

/-- C5 counterexample: in the initial M2 state the line is `[-1, -1]`, so
the fetch at pc 0 is a miss — and it charges 50 cycles, not the 51 the
claim states. -/
theorem mvm2_miss_charges_50_not_51 :
    (Mvm2.new 0).fetch_instruction.1.2 = 50 ∧ (Mvm2.new 0).fetch_instruction.1.2 ≠ 51 :=
  ⟨rfl, by decide⟩

/-- C5 (amended): an M2 fetch with pc inside `[l1_min, l1_max]` charges
exactly 1 cycle and leaves the machine unchanged; a fetch outside it
refills the line to `[pc, pc + 64]` and charges exactly 50 cycles. -/
theorem mvm2_fetch_hit_1_miss_50 (m : Mvm2) :
    (m.l1_min ≤ m.ctx.pc ∧ m.ctx.pc ≤ m.l1_max →
        m.fetch_instruction = (((Int.tdiv m.ctx.pc 4).toNat, 1), m))
    ∧ (¬(m.l1_min ≤ m.ctx.pc ∧ m.ctx.pc ≤ m.l1_max) →
        m.fetch_instruction = (((Int.tdiv m.ctx.pc 4).toNat, 50),
          { m with l1_min := m.ctx.pc, l1_max := m.ctx.pc + 64 })) := by
  unfold Mvm2.fetch_instruction
  constructor
  · intro h
    rw [if_pos ⟨h.1, h.2⟩]
  · intro h
    rw [if_neg (fun hc => h ⟨hc.1, hc.2⟩)]

/-- C5 witness: the initial state misses (and the refilled state hits). -/
theorem mvm2_fetch_hit_1_miss_50_witness :
    (Mvm2.new 0).fetch_instruction
      = ((0, 50), { Mvm2.new 0 with l1_min := 0, l1_max := 64 })
    ∧ ({ Mvm2.new 0 with l1_min := 0, l1_max := 64 } : Mvm2).fetch_instruction
      = ((0, 1), { Mvm2.new 0 with l1_min := 0, l1_max := 64 }) :=
  ⟨(mvm2_fetch_hit_1_miss_50 (Mvm2.new 0)).2 (by decide),
   (mvm2_fetch_hit_1_miss_50 { Mvm2.new 0 with l1_min := 0, l1_max := 64 }).1 (by decide)⟩

/-- C3 counterexample: a BEQ whose operands differ does not even look the
label up — with `T1 = 1 ≠ 0 = T0` and an empty label map, the semantic
step of `beq t0, t1, foo` succeeds with the fall-through pc 4 instead of
failing with "label foo does not exist". -/
theorem branch_unknown_label_not_taken_succeeds :
    run (.beq .T0 .T1 "foo") ctxT1 [] = .ok (ctxT1, 4) := rfl

/-- C3 (amended): a *taken* conditional branch (its condition holds) and a
JAL whose label is absent from the label map fail with the error string
"label <name> does not exist". -/
theorem taken_branch_unknown_label_fails (ctx : Context) (labels : List (String × Int))
    (rs1 rs2 rd : RegisterType) (name : String) (hl : labels.lookup name = none) :
    (ctx.registers rs1 = ctx.registers rs2 →
        run (.beq rs1 rs2 name) ctx labels = .error ("label " ++ name ++ " does not exist"))
    ∧ (ctx.registers rs1 ≠ ctx.registers rs2 →
        run (.bne rs1 rs2 name) ctx labels = .error ("label " ++ name ++ " does not exist"))
    ∧ (ctx.registers rs1 < ctx.registers rs2 →
        run (.blt rs1 rs2 name) ctx labels = .error ("label " ++ name ++ " does not exist"))
    ∧ (ctx.registers rs1 < ctx.registers rs2 →
        run (.bltu rs1 rs2 name) ctx labels = .error ("label " ++ name ++ " does not exist"))
    ∧ (ctx.registers rs1 ≥ ctx.registers rs2 →
        run (.bge rs1 rs2 name) ctx labels = .error ("label " ++ name ++ " does not exist"))
    ∧ (ctx.registers rs1 ≥ ctx.registers rs2 →
        run (.bgeu rs1 rs2 name) ctx labels = .error ("label " ++ name ++ " does not exist"))
    ∧ run (.jal name rd) ctx labels = .error ("label " ++ name ++ " does not exist") := by
  refine ⟨fun h => ?_, fun h => ?_, fun h => ?_, fun h => ?_, fun h => ?_, fun h => ?_, ?_⟩
  · simp [run, hl, h]
  · simp [run, hl, h]
  · simp [run, hl, h]
  · simp [run, hl, h]
  · simp [run, hl, h]
  · simp [run, hl, h]
  · simp [run, hl]

/-- C3 witness: with all registers 0 and no labels, the taken `beq` and a
`jal` to the unknown label "foo" both fail with the claimed message. -/
theorem taken_branch_unknown_label_fails_witness :
    run (.beq .T0 .T1 "foo") (Context.new 0) [] = .error "label foo does not exist"
    ∧ run (.jal "foo" .T2) (Context.new 0) [] = .error "label foo does not exist" :=
  ⟨(taken_branch_unknown_label_fails (Context.new 0) [] .T0 .T1 .T2 "foo" rfl).1 rfl,
   (taken_branch_unknown_label_fails (Context.new 0) [] .T0 .T1 .T2 "foo" rfl).2.2.2.2.2.2⟩

/-- The M1 execute/write-back table decomposes into the execute cost plus
one write-back cycle for every non-store opcode. -/
theorem mvm1_table_decomposition (t : InstructionType) :
    mvm1_execute_write_cycles t
      = cycles_per_instruction t + (if write_back t then 1 else 0) := by
  cases t <;> rfl

/-- An M1 iteration that succeeds charges `50 + 1 +` the table cost of the
fetched instruction. -/
theorem mvm1_step_cycles (app : Application) (ctx ctx1 : Context) (c : Int)
    (h : mvm1_step app ctx = .ok (ctx1, c)) :
    c = 50 + 1 + mvm1_execute_write_cycles
          (instruction_type (mvm1_fetch_instruction ctx app).1) := by
  unfold mvm1_step mvm1_execute_write at h
  simp only [mvm1_decode] at h
  split at h
  · simp at h
  · next heq =>
      split at heq
      · simp at heq
      · simp only [Except.ok.injEq, Prod.mk.injEq] at h heq
        rw [← h.2, ← heq.2]
        simp [mvm1_fetch_instruction]

/-- C6: every M1 loop iteration adds exactly 50 cycles for fetch, 1 for
decode, the instruction's execute cost (1 for arithmetic / logical /
branch / jump / upper / NOP, 50 for loads and stores), and 1 for
write-back unless the instruction is a store — so an arithmetic
instruction contributes 53 cycles in total, a load 102, a store 101. -/
theorem mvm1_iteration_cycle_breakdown (app : Application) (ctx ctx1 : Context) (c : Int)
    (h : mvm1_step app ctx = .ok (ctx1, c)) :
    c = 50 + 1
        + cycles_per_instruction (instruction_type (mvm1_fetch_instruction ctx app).1)
        + (if write_back (instruction_type (mvm1_fetch_instruction ctx app).1) then 1 else 0)
    ∧ (∀ t, cycles_per_instruction t = 1 → write_back t = true →
          50 + 1 + mvm1_execute_write_cycles t = 53)
    ∧ 50 + 1 + mvm1_execute_write_cycles .ADD = 53
    ∧ 50 + 1 + mvm1_execute_write_cycles .LW = 102
    ∧ 50 + 1 + mvm1_execute_write_cycles .SW = 101 := by
  refine ⟨?_, ?_, by decide, by decide, by decide⟩
  · rw [mvm1_step_cycles app ctx ctx1 c h, mvm1_table_decomposition]
    ring
  · intro t h1 hw
    rw [mvm1_table_decomposition, h1, hw]
    simp

/-- C6 witness: a one-NOP program charges 53 cycles in its iteration. -/
theorem mvm1_iteration_cycle_breakdown_witness :
    (53 : Int) = 50 + 1
        + cycles_per_instruction (instruction_type
            (mvm1_fetch_instruction (Context.new 0)
              { instructions := [.nop], labels := [] }).1)
        + (if write_back (instruction_type
            (mvm1_fetch_instruction (Context.new 0)
              { instructions := [.nop], labels := [] }).1) then 1 else 0) :=
  (mvm1_iteration_cycle_breakdown { instructions := [.nop], labels := [] }
    (Context.new 0) { Context.new 0 with pc := 4 } 53 rfl).1

/-- Writes to ZERO are dropped by `set_register`. -/
theorem set_register_zero (ctx : Context) (v : Int) :
    set_register ctx RegisterType.ZERO v = ctx := rfl

/-- `set_register` never makes ZERO nonzero. -/
theorem set_register_preserves_zero (ctx : Context) (r : RegisterType) (v : Int)
    (h : ctx.registers RegisterType.ZERO = 0) :
    (set_register ctx r v).registers RegisterType.ZERO = 0 := by
  unfold set_register
  split
  · exact h
  · next hne =>
      simp only
      rw [if_neg (fun hz => hne hz.symm)]
      exact h

/-- C2: a write to register ZERO through the instruction semantic layer is
silently discarded — `set_register` drops it, executing any instruction
whose destination register is ZERO leaves the entire register file
unchanged, and ZERO keeps reading 0 across every semantic step. -/
theorem zero_register_writes_discarded :
    (∀ ctx v, set_register ctx RegisterType.ZERO v = ctx)
    ∧ (∀ i ctx labels ctx1 pc, run i ctx labels = Except.ok (ctx1, pc) →
        (instrDest i = some RegisterType.ZERO → ctx1.registers = ctx.registers)
        ∧ (ctx.registers RegisterType.ZERO = 0 →
            ctx1.registers RegisterType.ZERO = 0)) := by
  refine ⟨set_register_zero, ?_⟩
  intro i ctx labels ctx1 pc h
  cases i <;>
    (simp only [run] at h
     repeat' split at h
     all_goals
       first
       | exact Except.noConfusion h
       | (simp only [Except.ok.injEq, Prod.mk.injEq] at h
          obtain ⟨h1, h2⟩ := h
          subst h1
          refine ⟨fun hd => ?_, fun hz => ?_⟩
          · first
            | exact Option.noConfusion hd
            | (simp only [instrDest, Option.some.injEq] at hd
               subst hd
               rw [set_register_zero])
          · first
            | exact hz
            | exact set_register_preserves_zero _ _ _ hz))

/-- C2 witness: `addi zero, t1, 3` leaves the register file of `ctxT1`
untouched and ZERO still reads 0. -/
theorem zero_register_writes_discarded_witness :
    run (.addi 3 .ZERO .T1) ctxT1 [] = .ok (ctxT1, 4)
    ∧ ctxT1.registers = ctxT1.registers
    ∧ ctxT1.registers RegisterType.ZERO = 0 :=
  ⟨rfl,
   (zero_register_writes_discarded.2 (.addi 3 .ZERO .T1) ctxT1 [] ctxT1 4 rfl).1 rfl,
   (zero_register_writes_discarded.2 (.addi 3 .ZERO .T1) ctxT1 [] ctxT1 4 rfl).2 rfl⟩

/-- C1: on `appBltu` (a taken BLTU) with `T1 = 1`, all three machines
terminate without error, M1 and M2 agree — `(T2, T3) = (0, 7)` — but M3
ends with `(T2, T3) = (5, 7)`: because `conditional_branching` omits
BLTU, the branch unit never flushes the mispredicted path and the
squashed-in-M1 `addi t2, zero, 5` commits. -/
theorem machines_disagree_on_taken_bltu :
    (mvm1_run appBltu 10 ctxT1 0).map
        (Except.map (fun p => (p.1.registers .T2, p.1.registers .T3)))
      = some (.ok (0, 7))
    ∧ (mvm2_run appBltu 10 { Mvm2.new 0 with ctx := ctxT1 } 0).map
        (Except.map (fun p => (p.1.ctx.registers .T2, p.1.ctx.registers .T3)))
      = some (.ok (0, 7))
    ∧ (mvm3_run appBltu 100 { Mvm3.new 0 with ctx := ctxT1 } 0).map
        (Except.map (fun p => (p.1.ctx.registers .T2, p.1.ctx.registers .T3)))
      = some (.ok (5, 7))
    ∧ ((0 : Int), (7 : Int)) ≠ ((5 : Int), (7 : Int)) :=
  ⟨rfl, rfl, rfl, by decide⟩

/-- C9 counterexample: 53 cycles into the `lw t0, 0, zero` run the
execute stage holds the LW (write set `[T0]`) mid-latency, the
execute→write bus is empty, yet the scoreboard is `[]` — so at this cycle
boundary the scoreboard does *not* equal the write sets of the in-flight
instructions held in the execute stage: entries are only added when
execute completes. -/
theorem scoreboard_omits_execute_held_instruction :
    (mvm3_ticks appLw 53 mvm3LwStart).map
        (fun m => (m.scoreboard, execute_held_writes m.execute_unit, busWrites m.write_bus))
      = some ([], [.T0], [])
    ∧ ([] : List RegisterType) ≠ [RegisterType.T0] ++ [] :=
  ⟨rfl, by decide⟩

/-! ### Bit-level lemmas for the store/load round trip (C7) -/

theorem lor_lt_pow {w x y : Nat} (hx : x < 2 ^ w) (hy : y < 2 ^ w) : x ||| y < 2 ^ w := by
  apply Nat.lt_pow_two_of_testBit
  intro i hi
  rw [Nat.testBit_lor]
  rw [Nat.testBit_lt_two_pow (lt_of_lt_of_le hx (Nat.pow_le_pow_right (by norm_num) hi)),
    Nat.testBit_lt_two_pow (lt_of_lt_of_le hy (Nat.pow_le_pow_right (by norm_num) hi))]
  rfl

theorem toU8_ofU8 {p : Nat} (hp : p < 256) : toU8 (ofU8 p) = p := by
  unfold toU8 ofU8
  split <;> omega

theorem ofU32_toU32_self {n : Int} (h1 : -2147483648 ≤ n) (h2 : n < 2147483648) :
    ofU32 (toU32 n) = n := by
  unfold ofU32 toU32
  split <;> omega

/-- `testBit` of an or-accumulating fold: bit `j` is set iff it was set in
the base or some step with a true condition wrote position `f i = j`. -/
theorem natfold_testBit (cond : Nat → Bool) (f : Nat → Nat) :
    ∀ (l : List Nat) (P : Nat) (j : Nat),
      (l.foldl (fun acc i => if cond i then acc ||| (1 <<< f i) else acc) P).testBit j
        = (P.testBit j || l.any (fun i => cond i && decide (f i = j))) := by
  intro l
  induction l with
  | nil => intro P j; simp
  | cons a l ih =>
      intro P j
      simp only [List.foldl_cons, List.any_cons]
      rw [ih]
      by_cases hc : cond a
      · simp only [hc, if_pos, true_and]
        rw [Nat.testBit_lor, Nat.one_shiftLeft, Nat.testBit_two_pow, Bool.or_assoc]
        simp
      · simp [hc]

/-- The or-accumulating fold stays below `2 ^ w` when every written
position does. -/
theorem natfold_lt (cond : Nat → Bool) (f : Nat → Nat) (w : Nat) :
    ∀ (l : List Nat) (P : Nat), (∀ i ∈ l, f i < w) → P < 2 ^ w →
      l.foldl (fun acc i => if cond i then acc ||| (1 <<< f i) else acc) P < 2 ^ w := by
  intro l
  induction l with
  | nil => intro P _ hP; exact hP
  | cons a l ih =>
      intro P hl hP
      simp only [List.foldl_cons]
      refine ih _ (fun i hi => hl i (List.mem_cons_of_mem _ hi)) ?_
      by_cases hc : cond a
      · rw [if_pos hc]
        refine lor_lt_pow hP ?_
        rw [Nat.one_shiftLeft]
        exact Nat.pow_lt_pow_right (by norm_num) (hl a (List.mem_cons_self _ _))
      · rwa [if_neg hc]

/-- The signed `i8` bit-setting fold is the or-accumulating fold under
`ofU8`. -/
theorem i8fold_eq (cond : Nat → Bool) :
    ∀ (l : List Nat) (P : Nat), (∀ i ∈ l, i < 8) → P < 256 →
      l.foldl (fun acc i => if cond i then set_i8_bit acc i else acc) (ofU8 P)
        = ofU8 (l.foldl (fun acc i => if cond i then acc ||| (1 <<< i) else acc) P) := by
  intro l
  induction l with
  | nil => intros; rfl
  | cons a l ih =>
      intro P hl hP
      simp only [List.foldl_cons]
      by_cases hc : cond a
      · rw [if_pos hc, if_pos hc]
        have hset : set_i8_bit (ofU8 P) a = ofU8 (P ||| (1 <<< a)) := by
          unfold set_i8_bit
          rw [toU8_ofU8 hP]
        rw [hset]
        refine ih _ (fun i hi => hl i (List.mem_cons_of_mem _ hi)) ?_
        refine lor_lt_pow (w := 8) hP ?_
        rw [Nat.one_shiftLeft]
        exact Nat.pow_lt_pow_right (by norm_num) (hl a (List.mem_cons_self _ _))
      · rw [if_neg hc, if_neg hc]
        exact ih _ (fun i hi => hl i (List.mem_cons_of_mem _ hi)) hP

/-- The signed `i32` bit-setting fold is the or-accumulating fold under
`ofU32`. -/
theorem i32fold_eq (cond : Nat → Bool) (f : Nat → Nat) :
    ∀ (l : List Nat) (Q : Nat), (∀ i ∈ l, f i < 32) → Q < 4294967296 →
      l.foldl (fun acc i => if cond i then set_i32_bit acc (f i) else acc) (ofU32 Q)
        = ofU32 (l.foldl (fun acc i => if cond i then acc ||| (1 <<< f i) else acc) Q) := by
  intro l
  induction l with
  | nil => intros; rfl
  | cons a l ih =>
      intro Q hl hQ
      simp only [List.foldl_cons]
      by_cases hc : cond a
      · rw [if_pos hc, if_pos hc]
        have hto : toU32 (ofU32 Q) = Q := by
          unfold toU32 ofU32
          split <;> omega
        have hset : set_i32_bit (ofU32 Q) (f a) = ofU32 (Q ||| (1 <<< f a)) := by
          unfold set_i32_bit
          rw [hto]
        rw [hset]
        refine ih _ (fun i hi => hl i (List.mem_cons_of_mem _ hi)) ?_
        refine lor_lt_pow (w := 32) hQ ?_
        rw [Nat.one_shiftLeft]
        exact Nat.pow_lt_pow_right (by norm_num) (hl a (List.mem_cons_self _ _))
      · rw [if_neg hc, if_neg hc]
        exact ih _ (fun i hi => hl i (List.mem_cons_of_mem _ hi)) hQ

theorem any_range_single (g : Nat → Bool) (m j : Nat) :
    (List.range m).any (fun i => g i && decide (i = j)) = (decide (j < m) && g j) := by
  rw [Bool.eq_iff_iff]
  simp only [List.any_eq_true, List.mem_range, Bool.and_eq_true, decide_eq_true_eq]
  constructor
  · rintro ⟨i, him, hgi, hij⟩
    subst hij
    exact ⟨him, hgi⟩
  · rintro ⟨hjm, hgj⟩
    exact ⟨j, hjm, hgj, rfl⟩

theorem any_range_off (g : Nat → Bool) (K j : Nat) :
    (List.range 8).any (fun i => (decide (i < 8) && g (K + i)) && decide (K + i = j))
      = (decide (K ≤ j ∧ j < K + 8) && g j) := by
  rw [Bool.eq_iff_iff]
  simp only [List.any_eq_true, List.mem_range, Bool.and_eq_true, decide_eq_true_eq]
  constructor
  · rintro ⟨i, him, ⟨-, hgi⟩, hij⟩
    subst hij
    exact ⟨⟨Nat.le_add_right _ _, by omega⟩, hgi⟩
  · rintro ⟨⟨hk1, hk2⟩, hgj⟩
    refine ⟨j - K, by omega, ⟨by omega, ?_⟩, by omega⟩
    have hjk : K + (j - K) = j := by omega
    rw [hjk]
    exact hgj

theorem toU32_lt (n : Int) : toU32 n < 4294967296 := by
  unfold toU32
  omega

/-- The heart of C7: reassembling the four sign-extended lanes produced by
`bytes_from_low_bits` returns the original signed 32-bit value. -/
theorem i32_from_bytes_bytes_from_low_bits (n : Int)
    (h1 : -2147483648 ≤ n) (h2 : n < 2147483648) :
    i32_from_bytes (bytes_from_low_bits n).1 (bytes_from_low_bits n).2.1
      (bytes_from_low_bits n).2.2.1 (bytes_from_low_bits n).2.2.2 = n := by
  have hrange8 : ∀ i ∈ List.range 8, i < 8 := fun i hi => List.mem_range.mp hi
  have hbyte : ∀ lo, byteFromBits n lo
      = ofU8 ((List.range 8).foldl
          (fun acc i => if get_i32_bit n (lo + i) then acc ||| (1 <<< i) else acc) 0) := by
    intro lo
    unfold byteFromBits
    exact i8fold_eq (fun i => get_i32_bit n (lo + i)) (List.range 8) 0 hrange8 (by norm_num)
  have hbyte_lt : ∀ lo, (List.range 8).foldl
      (fun acc i => if get_i32_bit n (lo + i) then acc ||| (1 <<< i) else acc) 0 < 256 :=
    fun lo => natfold_lt (fun i => get_i32_bit n (lo + i)) (fun i => i) 8
      (List.range 8) 0 hrange8 (by norm_num)
  have hbit8 : ∀ lo i, get_i8_bit (ofU8 ((List.range 8).foldl
        (fun acc i => if get_i32_bit n (lo + i) then acc ||| (1 <<< i) else acc) 0)) i
      = (decide (i < 8) && get_i32_bit n (lo + i)) := by
    intro lo i
    unfold get_i8_bit
    rw [toU8_ofU8 (hbyte_lt lo)]
    rw [natfold_testBit (fun i => get_i32_bit n (lo + i)) (fun i => i) (List.range 8) 0 i]
    rw [Nat.zero_testBit, Bool.false_or]
    exact any_range_single (fun i2 => get_i32_bit n (lo + i2)) 8 i
  have hword : ∀ (b : Int) (lo : Nat) (Q : Nat), (∀ i ∈ List.range 8, lo + i < 32) →
      Q < 4294967296 →
      wordFromByte b lo (ofU32 Q) = ofU32 ((List.range 8).foldl
        (fun acc i => if get_i8_bit b i then acc ||| (1 <<< (lo + i)) else acc) Q) := by
    intro b lo Q hlt hQ
    unfold wordFromByte
    exact i32fold_eq (fun i => get_i8_bit b i) (fun i => lo + i) (List.range 8) Q hlt hQ
  have hwlt : ∀ (b : Int) (lo : Nat) (Q : Nat), (∀ i ∈ List.range 8, lo + i < 32) →
      Q < 4294967296 →
      (List.range 8).foldl
        (fun acc i => if get_i8_bit b i then acc ||| (1 <<< (lo + i)) else acc) Q
        < 4294967296 :=
    fun b lo Q hlt hQ =>
      natfold_lt (fun i => get_i8_bit b i) (fun i => lo + i) 32 (List.range 8) Q hlt hQ
  have hr0 : ∀ i ∈ List.range 8, 0 + i < 32 := fun i hi => by
    have := List.mem_range.mp hi; omega
  have hr8 : ∀ i ∈ List.range 8, 8 + i < 32 := fun i hi => by
    have := List.mem_range.mp hi; omega
  have hr16 : ∀ i ∈ List.range 8, 16 + i < 32 := fun i hi => by
    have := List.mem_range.mp hi; omega
  have hr24 : ∀ i ∈ List.range 8, 24 + i < 32 := fun i hi => by
    have := List.mem_range.mp hi; omega
  simp only [bytes_from_low_bits]
  rw [hbyte 0, hbyte 8, hbyte 16, hbyte 24]
  unfold i32_from_bytes
  rw [show (0 : Int) = ofU32 0 from rfl]
  rw [hword _ 0 0 hr0 (by norm_num)]
  rw [hword _ 8 _ hr8 (hwlt _ 0 0 hr0 (by norm_num))]
  rw [hword _ 16 _ hr16 (hwlt _ 8 _ hr8 (hwlt _ 0 0 hr0 (by norm_num)))]
  rw [hword _ 24 _ hr24 (hwlt _ 16 _ hr16 (hwlt _ 8 _ hr8 (hwlt _ 0 0 hr0 (by norm_num))))]
  have hQ4 : (List.range 8).foldl
      (fun acc i => if get_i8_bit (ofU8 ((List.range 8).foldl
          (fun acc i => if get_i32_bit n (24 + i) then acc ||| (1 <<< i) else acc) 0)) i
        then acc ||| (1 <<< (24 + i)) else acc)
      ((List.range 8).foldl
        (fun acc i => if get_i8_bit (ofU8 ((List.range 8).foldl
            (fun acc i => if get_i32_bit n (16 + i) then acc ||| (1 <<< i) else acc) 0)) i
          then acc ||| (1 <<< (16 + i)) else acc)
        ((List.range 8).foldl
          (fun acc i => if get_i8_bit (ofU8 ((List.range 8).foldl
              (fun acc i => if get_i32_bit n (8 + i) then acc ||| (1 <<< i) else acc) 0)) i
            then acc ||| (1 <<< (8 + i)) else acc)
          ((List.range 8).foldl
            (fun acc i => if get_i8_bit (ofU8 ((List.range 8).foldl
                (fun acc i => if get_i32_bit n (0 + i) then acc ||| (1 <<< i) else acc) 0)) i
              then acc ||| (1 <<< (0 + i)) else acc) 0)))
      = toU32 n := by
    apply Nat.eq_of_testBit_eq
    intro j
    rw [natfold_testBit, natfold_testBit, natfold_testBit, natfold_testBit,
      Nat.zero_testBit, Bool.false_or]
    simp only [hbit8]
    rw [any_range_off (fun i => get_i32_bit n i) 0 j,
      any_range_off (fun i => get_i32_bit n i) 8 j,
      any_range_off (fun i => get_i32_bit n i) 16 j,
      any_range_off (fun i => get_i32_bit n i) 24 j]
    have hsplit : ∀ (x : Bool),
        (decide (0 ≤ j ∧ j < 0 + 8) && x || decide (8 ≤ j ∧ j < 8 + 8) && x
          || decide (16 ≤ j ∧ j < 16 + 8) && x || decide (24 ≤ j ∧ j < 24 + 8) && x)
        = (decide (j < 32) && x) := by
      intro x
      cases x with
      | false => simp
      | true =>
          simp only [Bool.and_true]
          rw [Bool.eq_iff_iff]
          simp only [Bool.or_eq_true, decide_eq_true_eq]
          omega
    rw [hsplit]
    by_cases hj : j < 32
    · rw [decide_eq_true hj, Bool.true_and]
      rfl
    · rw [decide_eq_false hj, Bool.false_and]
      have hlt2 : toU32 n < 2 ^ j := by
        calc toU32 n < 4294967296 := toU32_lt n
        _ = 2 ^ 32 := by norm_num
        _ ≤ 2 ^ j := Nat.pow_le_pow_right (by norm_num) (by omega)
      exact (Nat.testBit_lt_two_pow hlt2).symm
  rw [hQ4]
  exact ofU32_toU32_self h1 h2

/-- Reading back the four cells written by a word store. -/
theorem getD_set_four (mem : List Int) (a : Nat) (b1 b2 b3 b4 : Int)
    (h : a + 3 < mem.length) :
    ((((mem.set a b1).set (a+1) b2).set (a+2) b3).set (a+3) b4).getD a 0 = b1
    ∧ ((((mem.set a b1).set (a+1) b2).set (a+2) b3).set (a+3) b4).getD (a+1) 0 = b2
    ∧ ((((mem.set a b1).set (a+1) b2).set (a+2) b3).set (a+3) b4).getD (a+2) 0 = b3
    ∧ ((((mem.set a b1).set (a+1) b2).set (a+2) b3).set (a+3) b4).getD (a+3) 0 = b4 := by
  refine ⟨?_, ?_, ?_, ?_⟩
  · rw [List.getD_eq_getElem?_getD,
      List.getElem?_set_ne (by omega), List.getElem?_set_ne (by omega),
      List.getElem?_set_ne (by omega), List.getElem?_set]
    rw [if_pos rfl, if_pos (by omega)]
    rfl
  · rw [List.getD_eq_getElem?_getD,
      List.getElem?_set_ne (by omega), List.getElem?_set_ne (by omega),
      List.getElem?_set]
    rw [if_pos rfl, if_pos (by simp [List.length_set]; omega)]
    rfl
  · rw [List.getD_eq_getElem?_getD, List.getElem?_set_ne (by omega), List.getElem?_set]
    rw [if_pos rfl, if_pos (by simp [List.length_set]; omega)]
    rfl
  · rw [List.getD_eq_getElem?_getD, List.getElem?_set]
    rw [if_pos rfl, if_pos (by simp [List.length_set]; omega)]
    rfl

/-- Reading the register just written by `set_register` (non-ZERO). -/
theorem set_register_get_self (ctx : Context) (rd : RegisterType) (v : Int)
    (hrd : rd ≠ RegisterType.ZERO) :
    (set_register ctx rd v).registers rd = v := by
  unfold set_register
  rw [if_neg hrd]
  simp

/-- C7: for every signed 32-bit value `n` and every address `a = rs1 +
offset` with `a + 3` inside memory, SW of `n` at `a` followed by LW from
`a` yields `n` again; equivalently, `i32_from_bytes` applied to the four
bytes of `bytes_from_low_bits n` returns exactly `n`. -/
theorem sw_then_lw_yields_n (ctx : Context) (labels : List (String × Int))
    (rs2 rs1 rd : RegisterType) (offset : Int) (n : Int)
    (h1 : -2147483648 ≤ n) (h2 : n < 2147483648)
    (hv : ctx.registers rs2 = n)
    (ha : 0 ≤ ctx.registers rs1 + offset)
    (hb : (ctx.registers rs1 + offset).toNat + 3 < ctx.memory.length)
    (hrd : rd ≠ RegisterType.ZERO) :
    i32_from_bytes (bytes_from_low_bits n).1 (bytes_from_low_bits n).2.1
      (bytes_from_low_bits n).2.2.1 (bytes_from_low_bits n).2.2.2 = n
    ∧ ∀ ctxS pcS, run (.sw rs2 offset rs1) ctx labels = .ok (ctxS, pcS) →
      ∀ ctxL pcL, run (.lw rd offset rs1) ctxS labels = .ok (ctxL, pcL) →
        ctxL.registers rd = n := by
  refine ⟨i32_from_bytes_bytes_from_low_bits n h1 h2, ?_⟩
  intro ctxS pcS hS ctxL pcL hL
  simp only [run, Except.ok.injEq, Prod.mk.injEq] at hS hL
  obtain ⟨hS1, _⟩ := hS
  obtain ⟨hL1, _⟩ := hL
  subst hS1 hL1
  rw [set_register_get_self _ _ _ hrd]
  have hidx : ∀ k : Nat, (ctx.registers rs1 + offset + (k : Int)).toNat
      = (ctx.registers rs1 + offset).toNat + k := by
    intro k
    omega
  have hread := getD_set_four ctx.memory (ctx.registers rs1 + offset).toNat
    (bytes_from_low_bits (ctx.registers rs2)).1
    (bytes_from_low_bits (ctx.registers rs2)).2.1
    (bytes_from_low_bits (ctx.registers rs2)).2.2.1
    (bytes_from_low_bits (ctx.registers rs2)).2.2.2 hb
  have e1 : (ctx.registers rs1 + offset + 1).toNat
      = (ctx.registers rs1 + offset).toNat + 1 := hidx 1
  have e2 : (ctx.registers rs1 + offset + 2).toNat
      = (ctx.registers rs1 + offset).toNat + 2 := hidx 2
  have e3 : (ctx.registers rs1 + offset + 3).toNat
      = (ctx.registers rs1 + offset).toNat + 3 := hidx 3
  rw [e1, e2, e3, hread.1, hread.2.1, hread.2.2.1, hread.2.2.2, hv]
  exact i32_from_bytes_bytes_from_low_bits n h1 h2

/-- C7 witness: storing 258 at address 0 and loading it back into T2
yields 258 (the stored bytes are little-endian `[2, 1, 0, 0]`). -/
theorem sw_then_lw_yields_n_witness :
    i32_from_bytes (bytes_from_low_bits 258).1 (bytes_from_low_bits 258).2.1
      (bytes_from_low_bits 258).2.2.1 (bytes_from_low_bits 258).2.2.2 = 258
    ∧ (set_register { ctxStore with memory := [2, 1, 0, 0] } RegisterType.T2
        (i32_from_bytes 2 1 0 0)).registers RegisterType.T2 = 258 :=
  ⟨(sw_then_lw_yields_n ctxStore [] .T0 .T1 .T2 0 258 (by decide) (by decide) rfl
      (by decide) (by decide) (by decide)).1,
   (sw_then_lw_yields_n ctxStore [] .T0 .T1 .T2 0 258 (by decide) (by decide) rfl
      (by decide) (by decide) (by decide)).2
     { ctxStore with memory := [2, 1, 0, 0] } 4 rfl
     (set_register { ctxStore with memory := [2, 1, 0, 0] } RegisterType.T2
        (i32_from_bytes 2 1 0 0)) 4 rfl⟩

/-! ### The M3 scoreboard invariant (C9) -/

/-- Opcodes without a register write-back (the stores) expose an empty
write-register set. -/
theorem store_write_registers_empty (i : Instr)
    (h : write_back (instruction_type i) = false) : write_registers i = [] := by
  cases i <;> simp_all [instruction_type, write_back, write_registers, instrDest]

/-- Erasing a prefix, element by element, leaves the suffix. -/
theorem erase_prefix (ws : List RegisterType) :
    ∀ rest : List RegisterType, ws.foldl (fun s r => s.erase r) (ws ++ rest) = rest := by
  induction ws with
  | nil => intro rest; rfl
  | cons w ws ih =>
      intro rest
      simp only [List.cons_append, List.foldl_cons, List.erase_cons_head]
      exact ih rest

/-- A successful execute cycle either leaves the scoreboard and the
execute→write bus untouched, or pushes exactly one `ExecutionContext`
whose write registers it also enters into the scoreboard (empty for
stores). -/
theorem execute_cycle_effect (eu : ExecuteUnit) (ctx : Context) (sb : List RegisterType)
    (app : Application) (ib : Bus Instr) (ob : Bus ExecutionContext)
    (eu1 : ExecuteUnit) (ctx1 : Context) (sb1 : List RegisterType) (ib1 : Bus Instr)
    (ob1 : Bus ExecutionContext)
    (h : eu.cycle ctx sb app ib ob = .ok (eu1, ctx1, sb1, ib1, ob1)) :
    (sb1 = sb ∧ ob1 = ob)
    ∨ ∃ e : ExecutionContext, sb1 = sb ++ e.write_registers ∧ ob1 = ob.add [e]
        ∧ (write_back e.instruction_type = false → e.write_registers = []) := by
  unfold ExecuteUnit.cycle at h
  dsimp only at h
  repeat' split at h
  all_goals
    first
    | exact Except.noConfusion h
    | (simp only [Except.ok.injEq, Prod.mk.injEq] at h
       obtain ⟨h1, h2, h3, h4, h5⟩ := h
       subst h1 h2 h3 h4 h5
       first
       | exact Or.inl ⟨rfl, rfl⟩
       | (refine Or.inr ⟨_, ?_, rfl, ?_⟩
          · rfl
          · exact fun hw => store_write_registers_empty _ hw))

/-- The branch unit only requests a flush in a cycle where execute just
wrote to the execute→write bus entry. -/
theorem flush_needs_entry (bu : BranchUnit) (ctx : Context) (wb : Bus ExecutionContext)
    (h : wb.entry = []) : (bu.pipeline_to_be_flushed ctx wb).1 = false := by
  unfold BranchUnit.pipeline_to_be_flushed
  simp [Bus.contains_element_in_entry, h]

set_option maxHeartbeats 2000000 in
/-- A successful M3 tick preserves the write-bus/scoreboard invariant. -/
theorem mvm3_tick_preserves_wbInv (app : Application) (m m1 : Mvm3) (x : Int)
    (hInv : wbInv m) (h : mvm3_tick app m = .ok (m1, x)) : wbInv m1 := by
  obtain ⟨mctx, msb, mfu, mdb, meb, meu, ⟨wbE, wbB, wbQ, wbM⟩, mbu⟩ := m
  obtain ⟨hE, hQ, hBlen, hSB, hStore, hMax⟩ := hInv
  simp only at hE hQ hBlen hSB hStore hMax
  subst hE hQ hMax
  unfold mvm3_tick at h
  dsimp only at h
  split at h
  · exact Except.noConfusion h
  · next eu ctx sb eb2 wb hex =>
      rcases execute_cycle_effect _ _ _ _ _ _ _ _ _ _ _ hex with ⟨hsb, hwb⟩ | ⟨e, hsb, hwb, hstore⟩
      · subst hsb hwb
        rw [flush_needs_entry _ _ _ rfl] at h
        simp only [busWrites, List.map_append, List.flatten_append, List.map_nil,
          List.flatten_nil, List.append_nil, List.nil_append] at hSB
        rcases hfb : wbB.flatten with _ | ⟨e0, rest⟩
        · rw [hfb] at hSB
          simp only [List.map_nil, List.flatten_nil] at hSB
          simp [Bus.connect, hfb, write_unit_cycle, Mvm3.flush, Bus.flush,
            FetchUnit.flush, Bus.contains_element_in_buffer] at h
          obtain ⟨h1, h2⟩ := h
          subst h1
          simp [wbInv, busWrites, hSB]
        · cases rest with
          | cons e1 t =>
              rw [hfb] at hBlen
              simp at hBlen
          | nil =>
              rw [hfb] at hSB hStore
              simp only [List.map_cons, List.map_nil, List.flatten_cons, List.flatten_nil,
                List.append_nil] at hSB
              subst hSB
              have he0 := hStore e0 (by simp)
              have hdel : delete_write_registers e0.write_registers e0.write_registers = [] := by
                have hp := erase_prefix e0.write_registers []
                simpa [delete_write_registers] using hp
              simp [Bus.connect, hfb, write_unit_cycle, Mvm3.flush, Bus.flush,
                FetchUnit.flush, Bus.contains_element_in_buffer] at h
              split at h
              · obtain ⟨h1, h2⟩ := h
                subst h1
                simp [wbInv, busWrites, hdel]
              · next hwb0 =>
                  obtain ⟨h1, h2⟩ := h
                  subst h1
                  simp [wbInv, busWrites, he0 (by simpa using hwb0)]
      · subst hsb hwb
        simp only [busWrites, List.map_append, List.flatten_append, List.map_nil,
          List.flatten_nil, List.append_nil, List.nil_append] at hSB
        rcases hfb : wbB.flatten with _ | ⟨e0, rest⟩
        · rw [hfb] at hSB
          simp only [List.map_nil, List.flatten_nil] at hSB
          subst hSB
          have hdel : delete_write_registers e.write_registers e.write_registers = [] := by
            simpa [delete_write_registers] using erase_prefix e.write_registers []
          simp [Bus.connect, Bus.add, hfb, write_unit_cycle, Mvm3.flush, Bus.flush,
            FetchUnit.flush, Bus.contains_element_in_buffer] at h
          repeat' split at h
          all_goals (
            simp only [Except.ok.injEq, Prod.mk.injEq] at h
            obtain ⟨h1, h2⟩ := h
            subst h1
            simp_all [wbInv, busWrites, hdel])
        · cases rest with
          | cons e1 t =>
              rw [hfb] at hBlen
              simp at hBlen
          | nil =>
              rw [hfb] at hSB hStore
              simp only [List.map_cons, List.map_nil, List.flatten_cons, List.flatten_nil,
                List.append_nil] at hSB
              subst hSB
              have he0 := hStore e0 (by simp)
              have hdel : delete_write_registers e.write_registers e.write_registers = [] := by
                simpa [delete_write_registers] using erase_prefix e.write_registers []
              have hdel2 : delete_write_registers (e0.write_registers ++ e.write_registers)
                  e0.write_registers = e.write_registers := by
                simpa [delete_write_registers] using
                  erase_prefix e0.write_registers e.write_registers
              simp [Bus.connect, Bus.add, hfb, write_unit_cycle, Mvm3.flush, Bus.flush,
                FetchUnit.flush, Bus.contains_element_in_buffer] at h
              repeat' split at h
              all_goals (
                simp only [Except.ok.injEq, Prod.mk.injEq] at h
                obtain ⟨h1, h2⟩ := h
                subst h1
                simp_all [wbInv, busWrites, hdel, hdel2])

/-- The invariant holds at every reachable cycle boundary. -/
theorem mvm3_ticks_preserves_wbInv (app : Application) :
    ∀ (k : Nat) (m m1 : Mvm3), wbInv m → mvm3_ticks app k m = some m1 → wbInv m1 := by
  intro k
  induction k with
  | zero =>
      intro m m1 hI h
      simp only [mvm3_ticks, Option.some.injEq] at h
      subst h
      exact hI
  | succ k ih =>
      intro m m1 hI h
      unfold mvm3_ticks at h
      split at h
      · next m2 x2 heq => exact ih m2 m1 (mvm3_tick_preserves_wbInv app m m2 x2 hI heq) h
      · exact Option.noConfusion h

/-- C9 (amended): in M3, at every cycle boundary the scoreboard equals the
union of the write-register sets of the results carried in the
execute→write bus, minus those already committed by write-back.  (The
original claim also counted the instruction *held* inside the execute
stage; the code only enters write registers when execute completes, and
the flush path drains the pending write-bus element before clearing, so
flushed states retain no stale entries.) -/
theorem mvm3_scoreboard_matches_write_bus (app : Application) (c : Context) (mb k : Nat)
    (m : Mvm3) (h : mvm3_ticks app k { Mvm3.new mb with ctx := c } = some m) :
    m.scoreboard = busWrites m.write_bus := by
  have hinit : wbInv { Mvm3.new mb with ctx := c } := by
    unfold wbInv
    refine ⟨rfl, rfl, by simp [Mvm3.new, Bus.new], rfl, ?_, rfl⟩
    intro e he
    simp only [Mvm3.new, Bus.new] at he
    simp at he
  exact (mvm3_ticks_preserves_wbInv app k _ m hinit h).2.2.2.1

set_option maxRecDepth 100000 in
/-- C9 witness: 102 cycles into the `lw` run, the LW's result sits on the
execute→write bus and the scoreboard is exactly its write set `[T0]`. -/
theorem mvm3_scoreboard_matches_write_bus_witness :
    (mvm3_ticks appLw 102 mvm3LwStart).map Mvm3.scoreboard
      = (mvm3_ticks appLw 102 mvm3LwStart).map (fun m => busWrites m.write_bus)
    ∧ (mvm3_ticks appLw 102 mvm3LwStart).map Mvm3.scoreboard
      = some [RegisterType.T0] := by
  constructor
  · cases hm : mvm3_ticks appLw 102 mvm3LwStart with
    | none => rfl
    | some m =>
        exact congrArg some (mvm3_scoreboard_matches_write_bus appLw
          { Context.new 0 with memory := [0, 0, 0, 0] } 0 102 m hm)
  · rfl

set_option maxRecDepth 100000 in
/-- Validation of the M3 embedding: it reproduces the repository's own
pipeline tests exactly — `addi` alone gives `T0 = 1` in 54 cycles, three
independent `addi`s give 56 cycles, `jal` squashes the wrong-path `addi`
and gives 59 cycles, a taken `beq` flushes and gives 61 cycles, and a
not-taken `beq` speculates correctly in 59 cycles. -/
theorem mvm3_reproduces_repository_tests :
    (mvm3_run { instructions := [.addi 1 .T0 .ZERO], labels := [] } 200 (Mvm3.new 0) 0).map
        (Except.map (fun p => (p.1.ctx.registers .T0, p.2))) = some (.ok (1, 54))
    ∧ (mvm3_run { instructions := [.addi 1 .T0 .ZERO, .addi 2 .T1 .ZERO, .addi 3 .T2 .ZERO], labels := [] } 200 (Mvm3.new 0) 0).map
        (Except.map (fun p => (p.1.ctx.registers .T0, p.1.ctx.registers .T1,
          p.1.ctx.registers .T2, p.2))) = some (.ok (1, 2, 3, 56))
    ∧ (mvm3_run { instructions := [.addi 1 .T0 .ZERO, .jal "foo" .T2, .addi 2 .T1 .ZERO, .addi 3 .T2 .ZERO], labels := [("foo", 12)] } 200 (Mvm3.new 0) 0).map
        (Except.map (fun p => (p.1.ctx.registers .T0, p.1.ctx.registers .T1,
          p.1.ctx.registers .T2, p.2))) = some (.ok (1, 0, 3, 59))
    ∧ (mvm3_run { instructions := [.addi 1 .T0 .ZERO, .addi 1 .T1 .ZERO, .beq .T0 .T1 "foo", .addi 2 .T1 .ZERO, .addi 3 .T2 .ZERO], labels := [("foo", 16)] } 200 (Mvm3.new 0) 0).map
        (Except.map (fun p => (p.1.ctx.registers .T0, p.1.ctx.registers .T1,
          p.1.ctx.registers .T2, p.2))) = some (.ok (1, 1, 3, 61))
    ∧ (mvm3_run { instructions := [.addi 0 .T0 .ZERO, .addi 1 .T1 .ZERO, .beq .T0 .T1 "foo", .addi 2 .T1 .ZERO, .addi 3 .T2 .ZERO], labels := [("foo", 16)] } 200 (Mvm3.new 0) 0).map
        (Except.map (fun p => (p.1.ctx.registers .T0, p.1.ctx.registers .T1,
          p.1.ctx.registers .T2, p.2))) = some (.ok (0, 2, 3, 59)) :=
  ⟨rfl, rfl, rfl, rfl, rfl⟩

end Ettore

